import Mathlib

/-
Verification of the physical memory map builder of the fmios kernel
(src/src/multiboot.c), against its natural-language specification.

The embedding below translates the C routines mb_pmap_shift, mb_pmap_add,
mb_pmap_count, mb_alloc_pages, mb_pmap_init, kconfig_alloc and mb_init into
total Lean functions.  The pmap entry fields are uint32 in C; arithmetic on
them is modelled with explicit reduction modulo 2^32 at every site where the
C expression can wrap.  Page number computations happen on unsigned long
(64-bit on the x86_64 target), modelled modulo 2^64 where a wrap is possible.
The conditionally compiled Multiboot1 branches (CONFIG_ENABLE_MULTIBOOT1) are
not enabled anywhere in the tree, so the Multiboot2 paths are the ones
embedded.
-/

namespace Fmios

/-- One past the largest uint32 value; pmap entry fields are uint32. -/
def U32 : Nat := 4294967296

/-- One past the largest unsigned long (x86_64) value. -/
def U64 : Nat := 18446744073709551616

/-- Reduce a value to uint32 range, as a store into a uint32 field does. -/
def u32 (n : Nat) : Nat := n % U32

/-- The uint32 value of n - 1 with wraparound, as C computes on unsigned
operands. -/
def u32sub1 (n : Nat) : Nat := (n + (U32 - 1)) % U32

/-- The unsigned long value of n - 1 with wraparound. -/
def w64sub1 (n : Nat) : Nat := (n + (U64 - 1)) % U64

/-- Sum of two uint64 values with wraparound. -/
def u64sum (a b : Nat) : Nat := (a + b) % U64

/-- From include/multiboot.h. -/
def MULTIBOOT_MEMORY_AVAILABLE : Nat := 1

/-- From include/multiboot.h. -/
def MULTIBOOT_MEMORY_RESERVED : Nat := 2

/-- From include/fmios/fmios.h. -/
def MEMORY_PMAP_UNUSED : Nat := 0

/-- From include/fmios/fmios.h. -/
def MEMORY_PMAP_KERNEL : Nat := 1

/-- From include/fmios/fmios.h. -/
def MEMORY_PMAP_LOADER : Nat := 2

/-- From include/fmios/fmios.h. -/
def MEMORY_PMAP_MODULE : Nat := 4

/-- From include/fmios/fmios.h: the all-ones uint32 bit pattern of the C
definition, the complement of zero. -/
def MEMORY_PMAP_END : Nat := 4294967295

/-- PAGE_SIZE from src/src/multiboot.c. -/
def PAGE_SIZE : Nat := 4096

/-- PAGE_NUM macro from src/src/multiboot.c. -/
def PAGE_NUM (addr : Nat) : Nat := addr / PAGE_SIZE

/-- struct pmap_entry of include/fmios/fmios.h: four uint32 fields.  The C
field named end is rendered end_ because end is a Lean keyword. -/
structure PmapEntry where
  start : Nat
  end_ : Nat
  type : Nat
  flags : Nat
deriving Repr, DecidableEq

/-- The all-zero entry produced by the memset in kconfig_alloc. -/
def zeroEntry : PmapEntry := ⟨0, 0, 0, 0⟩

/-- struct pmap_table of include/fmios/fmios.h: the count field (set to the
slot capacity by kconfig_alloc) and the backing entry array, rendered as a
list.  The sentinel slot entry[count] with flags MEMORY_PMAP_END is part of
the list. -/
structure PmapTable where
  count : Nat
  entry : List PmapEntry
deriving Repr, DecidableEq

/-- Read entries[i]; reading past the modelled storage yields the zero
entry. -/
def getE (l : List PmapEntry) (i : Nat) : PmapEntry := l.getD i zeroEntry

/-- Write entries[i] in place; a write past the modelled storage is
dropped. -/
def setE (l : List PmapEntry) (i : Nat) (e : PmapEntry) : List PmapEntry :=
  l.set i e

/-- The scan at the top of mb_pmap_shift: the smallest i with
entries[base + i + 1].flags equal to MEMORY_PMAP_END.  The C while loop walks
until it hits the sentinel; every table built by kconfig_alloc carries one,
so the none case (no sentinel within the storage) is unreachable in the
modelled runs. -/
def findSentinel (l : List PmapEntry) (base : Nat) : Option Nat :=
  (List.range (l.length + 1)).find?
    (fun i => (getE l (base + i + 1)).flags == MEMORY_PMAP_END)

/-- One iteration of the copy loop of mb_pmap_shift: if
entries[base + j - cnt].type is nonzero, copy that slot to
entries[base + j]. -/
def shiftStep (base cnt j : Nat) (l : List PmapEntry) : List PmapEntry :=
  if (getE l (base + j - cnt)).type ≠ 0 then
    setE l (base + j) (getE l (base + j - cnt))
  else l

/-- The copy loop of mb_pmap_shift, iterating j from idx down to cnt (the C
loop runs while j - cnt is non-negative), in descending order exactly as the
source does. -/
def shiftCopy (base cnt idx : Nat) (l : List PmapEntry) : List PmapEntry :=
  ((List.range' cnt (idx + 1 - cnt)).reverse).foldl
    (fun acc j => shiftStep base cnt j acc) l

/-- mb_pmap_shift of src/src/multiboot.c, operating at offset base into the
entry array (the C caller passes the pointer to entries[base]).  none models
the return 0 path (the scan found the sentinel immediately after base); the
table is untouched on that path because the copy loop has not yet run. -/
def mbPmapShift (l : List PmapEntry) (base cnt : Nat) : Option (List PmapEntry) :=
  match findSentinel l base with
  | none => none
  | some idx =>
    if idx = 0 then none
    else some (shiftCopy base cnt idx l)

/-- The condition of the overlap check of mb_pmap_add (lines 480-489), on
the claim e, the matched entry cur and the following entry nxt, written with
the comparisons of the source: a nonzero flags field is truthy in C. -/
def overlapCond (e cur nxt : PmapEntry) : Prop :=
  ((e.start ≤ cur.end_ ∨ cur.start ≤ e.end_)
    ∧ (cur.flags ≠ 0 ∧ cur.flags ≠ e.flags))
  ∨ (nxt.start ≤ e.end_ ∧ (nxt.flags ≠ 0 ∧ cur.flags ≠ e.flags))

instance (e cur nxt : PmapEntry) : Decidable (overlapCond e cur nxt) := by
  unfold overlapCond; infer_instance

/-- The result of mb_pmap_add: the C int return value, the entry array after
the call, and whether the overlap diagnostic (the printk reporting pages
overlapping non-free regions) fired. -/
structure AddResult where
  ret : Nat
  entry : List PmapEntry
  overlapMsg : Bool
deriving Repr, DecidableEq

/-- The region-splitting block at the bottom of the mb_pmap_add loop body
(src/src/multiboot.c lines 532-552): shift by two from index + 1, write the
claim at index + 1, write the trailing remainder at index + 2, shrink the
entry at index.  The C code falls through to this block from the tail case
as well. -/
def splitCase (e : PmapEntry) (l : List PmapEntry) (index : Nat) : AddResult :=
  match mbPmapShift l (index + 1) 2 with
  | none => ⟨0, l, false⟩
  | some l1 =>
    let l2 := setE l1 (index + 1) e
    let l3 := setE l2 (index + 2)
      ⟨u32 (e.end_ + 1), (getE l2 index).end_, (getE l2 index).type,
        (getE l2 index).flags⟩
    let l4 := setE l3 index
      { getE l3 index with end_ := u32sub1 (getE l3 (index + 1)).start }
    ⟨index, l4, false⟩

/-- The head-alignment block of mb_pmap_add (lines 494-512): on equal flags
break (the loop then returns index); otherwise shift by one, overwrite the
slot with the claim and push the start of the following entry past the
claim. -/
def headCase (e : PmapEntry) (l : List PmapEntry) (index : Nat) : AddResult :=
  if e.flags = (getE l index).flags then ⟨index, l, false⟩
  else
    match mbPmapShift l index 1 with
    | none => ⟨0, l, false⟩
    | some l1 =>
      let l2 := setE l1 index e
      let l3 := setE l2 (index + 1)
        { getE l2 (index + 1) with start := u32 (e.end_ + 1) }
      ⟨index, l3, false⟩

/-- The tail block of mb_pmap_add (lines 514-530) followed by the fall
through into the split block: on equal flags join the regions and break;
otherwise optionally merge the claim into the following entry and continue
into the split code. -/
def tailCase (e : PmapEntry) (l : List PmapEntry) (index : Nat) : AddResult :=
  if e.flags = (getE l index).flags then
    let l1 := setE l index { getE l index with end_ := e.end_ }
    let l2 := setE l1 (index + 1)
      { getE l1 (index + 1) with start := u32 (e.end_ + 1) }
    ⟨index, l2, false⟩
  else
    let l1 :=
      if e.flags = (getE l (index + 1)).flags ∧
          u32 (e.end_ + 1) = (getE l (index + 1)).start then
        setE l (index + 1) { getE l (index + 1) with start := e.start }
      else l
    splitCase e l1 index

/-- The for loop of mb_pmap_add, with fuel counting the remaining loop
iterations (the caller passes count, the loop bound, as fuel).  Each branch
is translated from src/src/multiboot.c lines 465-553 in source order. -/
def mbPmapAddLoop (e : PmapEntry) (count : Nat) :
    Nat → Nat → List PmapEntry → AddResult
  | 0, index, l => ⟨index, l, false⟩
  | fuel + 1, index, l =>
    if index < count then
      if (getE l index).type ≠ MULTIBOOT_MEMORY_AVAILABLE then
        mbPmapAddLoop e count fuel (index + 1) l
      else if u32 ((getE l index).end_ + 1) < e.start then
        mbPmapAddLoop e count fuel (index + 1) l
      else if e.end_ < (getE l index).start then
        mbPmapAddLoop e count fuel (index + 1) l
      else if overlapCond e (getE l index) (getE l (index + 1)) then
        ⟨0, l, true⟩
      else if e.start = (getE l index).start then
        headCase e l index
      else if e.start = (getE l index).end_
          ∨ u32sub1 e.start = (getE l index).end_ then
        tailCase e l index
      else
        splitCase e l index
    else ⟨index, l, false⟩

/-- mb_pmap_add of src/src/multiboot.c: scan the table from index 0; the C
for loop runs index up to pmap->count, so count is also the fuel. -/
def mbPmapAdd (pmap : PmapTable) (e : PmapEntry) : AddResult :=
  mbPmapAddLoop e pmap.count pmap.count 0 pmap.entry

/-- The live entries of a table: slots before the sentinel whose type is
nonzero (zeroed backing slots have type 0 and are skipped by every loop in
the source). -/
def liveEntries (l : List PmapEntry) : List PmapEntry :=
  (l.takeWhile (fun e => e.flags ≠ MEMORY_PMAP_END)).filter
    (fun e => e.type ≠ 0)

/-- The live entries are in ascending address order. -/
def tableSorted (l : List PmapEntry) : Prop :=
  (liveEntries l).Pairwise (fun a b => a.start ≤ b.start)

/-- No two live entries overlap in address range. -/
def tableDisjoint (l : List PmapEntry) : Prop :=
  (liveEntries l).Pairwise (fun a b => a.end_ < b.start ∨ b.end_ < a.start)

instance (l : List PmapEntry) : Decidable (tableSorted l) := by
  unfold tableSorted; exact List.instDecidablePairwise _

instance (l : List PmapEntry) : Decidable (tableDisjoint l) := by
  unfold tableDisjoint; exact List.instDecidablePairwise _

/-- The three continue conditions at the top of the mb_pmap_add loop body: an
entry satisfying any of them is skipped by the scan. -/
def skips (e cur : PmapEntry) : Prop :=
  cur.type ≠ MULTIBOOT_MEMORY_AVAILABLE
    ∨ u32 (cur.end_ + 1) < e.start
    ∨ e.end_ < cur.start

instance (e cur : PmapEntry) : Decidable (skips e cur) := by
  unfold skips; infer_instance

/-- Negation of skips: the scan stops at this entry and handles the claim
against it. -/
def hits (e cur : PmapEntry) : Prop :=
  cur.type = MULTIBOOT_MEMORY_AVAILABLE
    ∧ e.start ≤ u32 (cur.end_ + 1)
    ∧ cur.start ≤ e.end_

instance (e cur : PmapEntry) : Decidable (hits e cur) := by
  unfold hits; infer_instance

/-- One entry of the Multiboot2 memory map tag (multiboot_memory_map_t):
addr and len are uint64, type is uint32. -/
structure MmapEnt where
  addr : Nat
  len : Nat
  type : Nat
deriving Repr, DecidableEq

/-- A Multiboot2 information tag as far as the memory map builder reads it.
The constructors carry the tag type codes 6 (MMAP), 3 (MODULE) and
4 (BASIC_MEMINFO) of include/multiboot.h; other records any other tag with
its type code.  mb_tag_find compares the stored type code against the
requested one, so matching on the constructor is the same search. -/
inductive MbTag where
  | mmap (entries : List MmapEnt)
  | module (modStart modEnd_ : Nat)
  | basicMeminfo (memLower memUpper : Nat)
  | other (t : Nat)
deriving Repr, DecidableEq

/-- Whether a tag is a module tag (type code 3). -/
def MbTag.isModule : MbTag → Bool
  | .module _ _ => true
  | _ => false

/-- The mod_start field read after the cast to multiboot_tag_module.  For a
non-module tag the C cast reinterprets foreign bytes; that case is rendered
as 0 and no theorem below depends on it. -/
def MbTag.modStartOf : MbTag → Nat
  | .module s _ => s
  | _ => 0

/-- The mod_end field read after the cast to multiboot_tag_module; same
remark as for modStartOf. -/
def MbTag.modEndOf : MbTag → Nat
  | .module _ t => t
  | _ => 0

/-- mb_tag_find for MULTIBOOT_TAG_TYPE_MMAP, returning the entry list of the
first memory map tag. -/
def findMmapEntries : List MbTag → Option (List MmapEnt)
  | [] => none
  | .mmap es :: _ => some es
  | _ :: rest => findMmapEntries rest

/-- mb_tag_find for MULTIBOOT_TAG_TYPE_BASIC_MEMINFO, returning mem_lower
and mem_upper of the first basic memory information tag. -/
def findMeminfo : List MbTag → Option (Nat × Nat)
  | [] => none
  | .basicMeminfo lo hi :: _ => some (lo, hi)
  | _ :: rest => findMeminfo rest

/-- The iteration pattern mb_tag_find(MODULE) followed by repeated
mb_tag_next: the suffix of the tag list starting at the first module tag.
mb_tag_next steps to the next tag of any type, so the loops written this way
in the source visit every tag of the suffix, not only the module tags. -/
def moduleSuffix : List MbTag → Option (List MbTag)
  | [] => none
  | .module s t :: rest => some (.module s t :: rest)
  | _ :: rest => moduleSuffix rest

/-- The Multiboot2 boot information block as the builder reads it: the tag
list and the uint32 total size field at its start (read by mb_mbi_len). -/
structure BootInfo where
  tags : List MbTag
  mbiSize : Nat
deriving Repr, DecidableEq

/-- mb_mbi_len of src/src/multiboot.c, Multiboot2 path: the uint32 length
field at the start of the information block. -/
def mbMbiLen (info : BootInfo) : Nat := u32 info.mbiSize

/-- The first half of mb_pmap_count: the count written by the basic memory
information branch, replaced by the memory map entry count when a memory map
tag exists. -/
def mmapSeedCount (tags : List MbTag) : Nat :=
  match findMmapEntries tags with
  | some es => es.length
  | none => if (findMeminfo tags).isSome then 2 else 0

/-- mb_pmap_count of src/src/multiboot.c (Multiboot2 path): 2 if only basic
memory information is present, replaced by the memory map entry count when a
memory map tag exists; plus one count per tag visited by the module walk;
plus 2 for the kernel and the boot information block. -/
def mbPmapCount (tags : List MbTag) : Nat :=
  mmapSeedCount tags + ((moduleSuffix tags).getD []).length + 2

/-- The slot capacity reserved by kconfig_alloc (line 680): double the
mb_pmap_count result. -/
def kconfigCapacity (tags : List MbTag) : Nat := mbPmapCount tags * 2

/-- sizeof(struct kconfig) on the x86_64 target: three unsigned long or
pointer fields, one uint32 plus padding, and the unsigned long count of the
trailing pmap_table. -/
def KCONFIG_SIZEOF : Nat := 40

/-- sizeof(struct pmap_entry): four uint32 fields. -/
def PMAP_ENTRY_SIZEOF : Nat := 16

/-- mb_alloc_pages of src/src/multiboot.c (Multiboot2 path): start searching
right after the kernel image, step past the boot information block and past
any tag visited by the module walk whose start page falls inside the
candidate window.  The function cannot return the null pointer since pstart
is at least 1. -/
def mbAllocPages (info : BootInfo) (addr count kernelEnd : Nat) : Nat :=
  let pstart := PAGE_NUM kernelEnd + 1
  let pend := pstart + count
  let p1 : Nat × Nat :=
    if PAGE_NUM addr < pend ∧ pstart < PAGE_NUM addr then
      (PAGE_NUM (addr + mbMbiLen info) + 1,
        PAGE_NUM (addr + mbMbiLen info) + 1 + count)
    else (pstart, pend)
  let p2 : Nat × Nat :=
    ((moduleSuffix info.tags).getD []).foldl
      (fun p tg =>
        if PAGE_NUM tg.modStartOf < p.2 ∧ p.1 < PAGE_NUM tg.modStartOf then
          (PAGE_NUM tg.modEndOf + 1, PAGE_NUM tg.modEndOf + 1 + count)
        else p) p1
  p2.1 * PAGE_SIZE

/-- struct kconfig as far as the builder writes it: the boot information
address and magic and the pmap table. -/
structure Kconfig where
  mbAddr : Nat
  mbMagic : Nat
  pmap : PmapTable
deriving Repr, DecidableEq

/-- Replace the entry storage of the kconfig pmap, keeping the count. -/
def setPmap (kc : Kconfig) (l : List PmapEntry) : Kconfig :=
  { kc with pmap := ⟨kc.pmap.count, l⟩ }

/-- The seeding loop of the memory map branch of mb_pmap_init (lines
604-615): write each memory map entry, converted to page numbers, in order
starting at slot 0.  Page arithmetic runs on unsigned long and the results
are stored into uint32 fields. -/
def seedLoop : List MmapEnt → List PmapEntry → Nat → List PmapEntry
  | [], l, _ => l
  | m :: rest, l, i =>
    seedLoop rest
      (setE l i
        ⟨u32 (PAGE_NUM m.addr),
          u32 (w64sub1 (PAGE_NUM (u64sum m.addr m.len))),
          m.type, MEMORY_PMAP_UNUSED⟩)
      (i + 1)

/-- The module walk at the bottom of mb_pmap_init (lines 639-653): one
mb_pmap_add per visited tag; a zero return aborts with the table in
whatever state the failed add left it. -/
def moduleAddLoop (count : Nat) :
    List MbTag → List PmapEntry → Bool × List PmapEntry
  | [], l => (true, l)
  | tg :: rest, l =>
    let r := mbPmapAdd ⟨count, l⟩
      ⟨u32 (PAGE_NUM tg.modStartOf), u32 (PAGE_NUM tg.modEndOf),
        MULTIBOOT_MEMORY_AVAILABLE, MEMORY_PMAP_MODULE⟩
    if r.ret = 0 then (false, r.entry)
    else moduleAddLoop count rest r.entry

/-- The carve-out insertions of mb_pmap_init (lines 618-656): the kernel
image claim, the boot information claim, then the module walk; any zero
return from mb_pmap_add makes the whole routine return 0, otherwise it
returns pmap->count. -/
def mbPmapInitClaims (kc : Kconfig) (info : BootInfo)
    (kernelStart kernelEnd : Nat) (l : List PmapEntry) : Nat × Kconfig :=
  let r1 := mbPmapAdd ⟨kc.pmap.count, l⟩
    ⟨u32 (PAGE_NUM kernelStart), u32 (PAGE_NUM kernelEnd),
      MULTIBOOT_MEMORY_AVAILABLE, MEMORY_PMAP_KERNEL⟩
  if r1.ret = 0 then (0, setPmap kc r1.entry)
  else
    let r2 := mbPmapAdd ⟨kc.pmap.count, r1.entry⟩
      ⟨u32 (PAGE_NUM kc.mbAddr), u32 (PAGE_NUM (kc.mbAddr + mbMbiLen info)),
        MULTIBOOT_MEMORY_AVAILABLE, MEMORY_PMAP_LOADER⟩
    if r2.ret = 0 then (0, setPmap kc r2.entry)
    else
      match moduleSuffix info.tags with
      | none => (kc.pmap.count, setPmap kc r2.entry)
      | some suf =>
        let r3 := moduleAddLoop kc.pmap.count suf r2.entry
        if r3.1 then (kc.pmap.count, setPmap kc r3.2)
        else (0, setPmap kc r3.2)

/-- mb_pmap_init of src/src/multiboot.c (Multiboot2 path): seed the table
from the memory map tag, or from the basic memory information tag when no
map exists, or return 0 when neither is present; then insert the
carve-outs. -/
def mbPmapInit (kc : Kconfig) (info : BootInfo)
    (kernelStart kernelEnd : Nat) : Nat × Kconfig :=
  match findMmapEntries info.tags with
  | some es =>
    mbPmapInitClaims kc info kernelStart kernelEnd
      (seedLoop es kc.pmap.entry 0)
  | none =>
    match findMeminfo info.tags with
    | none => (0, kc)
    | some (lo, hi) =>
      let l0 := setE kc.pmap.entry 0
        ⟨0, u32 (w64sub1 (PAGE_NUM (lo * 1024))),
          MULTIBOOT_MEMORY_AVAILABLE, MEMORY_PMAP_UNUSED⟩
      let l1 := setE l0 1
        ⟨u32 (PAGE_NUM (1024 * 1024)), u32 (w64sub1 (PAGE_NUM (hi * 1024))),
          MULTIBOOT_MEMORY_AVAILABLE, MEMORY_PMAP_UNUSED⟩
      mbPmapInitClaims kc info kernelStart kernelEnd l1

/-- kconfig_alloc of src/src/multiboot.c: reserve double the planned count
of slots, zero them, place the sentinel at slot count, run mb_pmap_init, and
finally claim the storage of the structure itself with usage
MEMORY_PMAP_KERNEL; a zero return from either step yields the null
pointer. -/
def kconfigAlloc (info : BootInfo) (addr magic kernelStart kernelEnd : Nat) :
    Option Kconfig :=
  let count := kconfigCapacity info.tags
  let size := KCONFIG_SIZEOF + count * PMAP_ENTRY_SIZEOF
  let kcAddr := mbAllocPages info addr (PAGE_NUM size + 1) kernelEnd
  let kc0 : Kconfig := ⟨addr, magic,
    ⟨count, List.replicate count zeroEntry ++ [⟨0, 0, 0, MEMORY_PMAP_END⟩]⟩⟩
  let r := mbPmapInit kc0 info kernelStart kernelEnd
  if r.1 ≠ 0 then
    let res := mbPmapAdd r.2.pmap
      ⟨u32 (PAGE_NUM kcAddr), u32 (PAGE_NUM (kcAddr + size)),
        MULTIBOOT_MEMORY_AVAILABLE, MEMORY_PMAP_KERNEL⟩
    if res.ret ≠ 0 then some (setPmap r.2 res.entry) else none
  else none

/-- The page address where kconfig_alloc places the structure, exposed for
the statements about the self-storage claim. -/
def kconfigAddr (info : BootInfo) (addr kernelEnd : Nat) : Nat :=
  mbAllocPages info addr
    (PAGE_NUM (KCONFIG_SIZEOF + kconfigCapacity info.tags * PMAP_ENTRY_SIZEOF)
      + 1) kernelEnd

/-- MULTIBOOT2_BOOTLOADER_MAGIC of include/multiboot.h. -/
def MULTIBOOT2_BOOTLOADER_MAGIC : Nat := 0x36d76289

/-- mb_init of src/src/multiboot.c as far as it affects the memory map: an
information address with low bits set is rejected before anything is read;
a wrong magic is rejected next; otherwise the result depends on
kconfig_alloc.  The serial, video and command line handling touches neither
the return path for misaligned addresses nor the map. -/
def mbInit (magic addr : Nat) (info : BootInfo)
    (kernelStart kernelEnd : Nat) : Nat :=
  if addr &&& 7 ≠ 0 then 1
  else if magic ≠ MULTIBOOT2_BOOTLOADER_MAGIC then 1
  else
    match kconfigAlloc info addr magic kernelStart kernelEnd with
    | none => 1
    | some _ => 0

/-- Modelled from the spec words: the raw region count R reported by the
Region Source, the number of entries of the first memory map tag. -/
def specRawRegionCount (tags : List MbTag) : Nat :=
  ((findMmapEntries tags).getD []).length

/-- Modelled from the spec words: the module count M reported by the Region
Source, the number of module tags in the boot information. -/
def specModuleCount (tags : List MbTag) : Nat :=
  (tags.filter (fun t => t.isModule)).length

/-- The sentinel slot as kconfig_alloc leaves it: zeroed except for the
MEMORY_PMAP_END flags. -/
def sentinelEntry : PmapEntry := ⟨0, 0, 0, MEMORY_PMAP_END⟩

/-- A table with a single free Available run of pages 100 to 199 and room
for splits: capacity 8, zeroed backing slots, sentinel at slot 8. -/
def tblFree : PmapTable :=
  ⟨8, [⟨100, 199, 1, 0⟩, zeroEntry, zeroEntry, zeroEntry, zeroEntry,
    zeroEntry, zeroEntry, zeroEntry, sentinelEntry]⟩

/-- A kernel claim of pages 140 to 159 strictly inside the run of
tblFree. -/
def claimKernelMid : PmapEntry := ⟨140, 159, 1, 1⟩

/-- The entry storage produced by inserting claimKernelMid into tblFree. -/
def splitFreeResult : List PmapEntry :=
  [⟨100, 139, 1, 0⟩, ⟨140, 159, 1, 1⟩, ⟨160, 199, 1, 0⟩, zeroEntry,
    zeroEntry, zeroEntry, zeroEntry, zeroEntry, sentinelEntry]

/-- A table with two adjacent Available Unused runs, pages 0 to 9 and 10 to
20, as arises from two contiguous raw regions. -/
def tblTwoFree : PmapTable :=
  ⟨8, [⟨0, 9, 1, 0⟩, ⟨10, 20, 1, 0⟩, zeroEntry, zeroEntry, zeroEntry,
    zeroEntry, zeroEntry, zeroEntry, sentinelEntry]⟩

/-- A kernel claim of pages 10 to 12, lying entirely inside the second run
of tblTwoFree. -/
def claimSecondRun : PmapEntry := ⟨10, 12, 1, 1⟩

/-- A table whose first entry is Reserved (pages 0 to 9) followed by an
Available run (pages 10 to 20). -/
def tblReserved : PmapTable :=
  ⟨5, [⟨0, 9, 2, 0⟩, ⟨10, 20, 1, 0⟩, zeroEntry, zeroEntry, zeroEntry,
    sentinelEntry]⟩

/-- A kernel claim of pages 0 to 5, entirely inside the Reserved entry of
tblReserved. -/
def claimInReserved : PmapEntry := ⟨0, 5, 1, 1⟩

/-- An entry storage whose three live entries fill the capacity completely:
the sentinel sits directly after the last live slot. -/
def tblFullStorage : List PmapEntry :=
  [⟨0, 4, 1, 0⟩, ⟨5, 9, 1, 0⟩, ⟨10, 14, 1, 0⟩, sentinelEntry]

/-- A table with a single Available run of pages 10 to 20. -/
def tblSingleFree : PmapTable :=
  ⟨6, [⟨10, 20, 1, 0⟩, zeroEntry, zeroEntry, zeroEntry, zeroEntry,
    zeroEntry, sentinelEntry]⟩

/-- A kernel claim of pages 21 to 30: it overlaps no entry of tblSingleFree
and starts in the gap directly after the free run. -/
def claimPastEnd : PmapEntry := ⟨21, 30, 1, 1⟩

/-- A table whose only Available entry is already claimed by the loader. -/
def tblLoaderClaimed : PmapTable :=
  ⟨4, [⟨0, 9, 1, 2⟩, zeroEntry, zeroEntry, zeroEntry, sentinelEntry]⟩

/-- A kernel claim of pages 0 to 5 inside the loader-claimed entry of
tblLoaderClaimed. -/
def claimIntoLoader : PmapEntry := ⟨0, 5, 1, 1⟩

/-- A boot information block with a two-region memory map (low memory below
0x9f000 and 127 MiB of high memory from 1 MiB), no modules, and a 0x500 byte
information block. -/
def info9 : BootInfo :=
  ⟨[.mmap [⟨0, 0x9f000, 1⟩, ⟨0x100000, 0x7f00000, 1⟩]], 0x500⟩

/-- A tag list whose module tag is followed by a non-module tag before the
memory map tag, as a loader is free to lay tags out. -/
def tagsNontrailing : List MbTag :=
  [.module 0x2000 0x3000, .other 8, .mmap [⟨0x100000, 0x100000, 1⟩]]

/-- A loop iteration on an entry satisfying one of the three continue
conditions advances the scan without touching the table. -/
theorem addLoop_skip (e : PmapEntry) (count fuel index : Nat)
    (l : List PmapEntry) (hlt : index < count) (h : skips e (getE l index)) :
    mbPmapAddLoop e count (fuel + 1) index l
      = mbPmapAddLoop e count fuel (index + 1) l := by
  simp only [mbPmapAddLoop]
  rw [if_pos hlt]
  by_cases h1 : (getE l index).type ≠ MULTIBOOT_MEMORY_AVAILABLE
  · rw [if_pos h1]
  · rw [if_neg h1]
    by_cases h2 : u32 ((getE l index).end_ + 1) < e.start
    · rw [if_pos h2]
    · rw [if_neg h2]
      have h3 : e.end_ < (getE l index).start := by
        rcases h with h | h | h
        · exact absurd h h1
        · exact absurd h h2
        · exact h
      rw [if_pos h3]

/-- The loop returns the running index once it reaches the entry count. -/
theorem addLoop_exit (e : PmapEntry) (count fuel index : Nat)
    (l : List PmapEntry) (h : ¬ index < count) :
    mbPmapAddLoop e count (fuel + 1) index l = ⟨index, l, false⟩ := by
  simp only [mbPmapAddLoop]
  rw [if_neg h]

/-- A scan that skips every remaining entry runs to the end and returns the
entry count with the table untouched. -/
theorem addLoop_all_skip (e : PmapEntry) (count : Nat) :
    ∀ fuel index l, count ≤ index + fuel → index ≤ count →
    (∀ i, index ≤ i → i < count → skips e (getE l i)) →
    mbPmapAddLoop e count fuel index l = ⟨count, l, false⟩ := by
  intro fuel
  induction fuel with
  | zero =>
    intro index l h1 h2 _
    have hic : index = count := by omega
    subst hic
    rfl
  | succ fuel ih =>
    intro index l h1 h2 hsk
    by_cases hlt : index < count
    · rw [addLoop_skip e count fuel index l hlt (hsk index le_rfl hlt)]
      exact ih (index + 1) l (by omega) (by omega)
        (fun i hi hic => hsk i (by omega) hic)
    · have hic : index = count := by omega
      rw [addLoop_exit e count fuel index l hlt, hic]

/-- A scan that skips every entry before index i and finds at i a matching
entry satisfying the overlap condition stops there with the error return and
the table untouched. -/
theorem addLoop_overlap (e : PmapEntry) (count i : Nat) :
    ∀ fuel index l, index ≤ i → i < count → count ≤ index + fuel →
    (∀ j, index ≤ j → j < i → skips e (getE l j)) →
    hits e (getE l i) → overlapCond e (getE l i) (getE l (i + 1)) →
    mbPmapAddLoop e count fuel index l = ⟨0, l, true⟩ := by
  intro fuel
  induction fuel with
  | zero =>
    intro index l hii hic hf _ _ _
    omega
  | succ fuel ih =>
    intro index l hii hic hf hsk hhit hov
    rcases Nat.eq_or_lt_of_le hii with heq | hlt
    · subst heq
      obtain ⟨ht, hs, hend⟩ := hhit
      simp only [mbPmapAddLoop]
      rw [if_pos hic]
      rw [if_neg (by simpa using ht)]
      rw [if_neg (Nat.not_lt.mpr hs)]
      rw [if_neg (Nat.not_lt.mpr hend)]
      rw [if_pos hov]
    · rw [addLoop_skip e count fuel index l (by omega)
        (hsk index le_rfl hlt)]
      exact ih (index + 1) l (by omega) hic (by omega)
        (fun j hj hji => hsk j (by omega) hji) hhit hov

/-- Case analysis helper: a tag list whose members are all module tags has
no basic memory information tag. -/
theorem findMeminfo_none_of_modules (mods : List MbTag)
    (h : ∀ m ∈ mods, m.isModule = true) : findMeminfo mods = none := by
  induction mods with
  | nil => rfl
  | cons m rest ih =>
    cases m with
    | mmap es => exact absurd (h _ (List.mem_cons_self _ _)) (by simp [MbTag.isModule])
    | module s t => exact ih (fun x hx => h x (List.mem_cons_of_mem _ hx))
    | basicMeminfo lo hi =>
      exact absurd (h _ (List.mem_cons_self _ _)) (by simp [MbTag.isModule])
    | other t => exact absurd (h _ (List.mem_cons_self _ _)) (by simp [MbTag.isModule])

/-- Case analysis helper: the module walk over a list of module tags visits
exactly those tags. -/
theorem moduleSuffix_len_of_modules (mods : List MbTag)
    (h : ∀ m ∈ mods, m.isModule = true) :
    ((moduleSuffix mods).getD []).length = mods.length := by
  cases mods with
  | nil => rfl
  | cons m rest =>
    cases m with
    | mmap es => exact absurd (h _ (List.mem_cons_self _ _)) (by simp [MbTag.isModule])
    | module s t => rfl
    | basicMeminfo lo hi =>
      exact absurd (h _ (List.mem_cons_self _ _)) (by simp [MbTag.isModule])
    | other t => exact absurd (h _ (List.mem_cons_self _ _)) (by simp [MbTag.isModule])

/-- Seeding helper for the statements about boot information without a
memory description: with neither a memory map tag nor a basic memory
information tag, mb_pmap_init returns 0 before touching the table. -/
theorem mbPmapInit_no_map (info : BootInfo) (kc : Kconfig) (ks ke : Nat)
    (h6 : findMmapEntries info.tags = none)
    (h4 : findMeminfo info.tags = none) :
    mbPmapInit kc info ks ke = (0, kc) := by
  unfold mbPmapInit
  rw [h6, h4]

/-- C1: a table of two adjacent Available Unused runs is address-sorted and
pairwise disjoint, and the claim of pages 10 to 12 lies entirely within the
second run, satisfying the insertion precondition; yet after one mb_pmap_add
call the live entries are neither disjoint (pages 10 to 12 and 10 to 20 both
appear) nor sorted (an inverted remainder of pages 13 to 9 is written).  The
tail-alignment test matches the first run because the claim starts directly
after it, and the code falls through into the split block against the wrong
entry. -/
theorem insert_within_free_run_corrupts_table :
    tableSorted tblTwoFree.entry ∧ tableDisjoint tblTwoFree.entry
    ∧ (getE tblTwoFree.entry 1).type = MULTIBOOT_MEMORY_AVAILABLE
    ∧ (getE tblTwoFree.entry 1).flags = MEMORY_PMAP_UNUSED
    ∧ (getE tblTwoFree.entry 1).start ≤ claimSecondRun.start
    ∧ claimSecondRun.end_ ≤ (getE tblTwoFree.entry 1).end_
    ∧ (mbPmapAdd tblTwoFree claimSecondRun).entry
      = [⟨0, 9, 1, 0⟩, ⟨10, 12, 1, 1⟩, ⟨13, 9, 1, 0⟩, ⟨10, 20, 1, 0⟩,
        zeroEntry, zeroEntry, zeroEntry, zeroEntry, sentinelEntry]
    ∧ ¬ tableDisjoint (mbPmapAdd tblTwoFree claimSecondRun).entry
    ∧ ¬ tableSorted (mbPmapAdd tblTwoFree claimSecondRun).entry := by
  decide

/-- C2: claiming pages 140 to 159 (the half-open byte range written
[140,160) in the specification) with usage Kernel strictly inside the
Available Unused entry of pages 100 to 199 replaces it by exactly three
live entries: the leading remainder up to page 139 in the original slot,
the claim itself, and the trailing remainder from page 160, all of type
Available with usages Unused, Kernel, Unused. -/
theorem strict_containment_split_correct :
    (mbPmapAdd tblFree claimKernelMid).entry = splitFreeResult
    ∧ liveEntries splitFreeResult
      = [⟨100, 139, MULTIBOOT_MEMORY_AVAILABLE, MEMORY_PMAP_UNUSED⟩,
        ⟨140, 159, MULTIBOOT_MEMORY_AVAILABLE, MEMORY_PMAP_KERNEL⟩,
        ⟨160, 199, MULTIBOOT_MEMORY_AVAILABLE, MEMORY_PMAP_UNUSED⟩] := by
  decide

/-- C3 counterexample: the claim of pages 0 to 5 lies inside the Reserved
entry of tblReserved, yet mb_pmap_add skips non-Available entries, returns
the entry count 5 (which its callers read as success) with the table
unchanged, and never raises the overlap diagnostic. -/
theorem reserved_overlap_silently_skipped :
    (getE tblReserved.entry 0).type = MULTIBOOT_MEMORY_RESERVED
    ∧ claimInReserved.start ≤ (getE tblReserved.entry 0).end_
    ∧ (getE tblReserved.entry 0).start ≤ claimInReserved.end_
    ∧ mbPmapAdd tblReserved claimInReserved = ⟨5, tblReserved.entry, false⟩
    ∧ (mbPmapAdd tblReserved claimInReserved).ret ≠ 0
    ∧ (mbPmapAdd tblReserved claimInReserved).overlapMsg = false := by
  decide

/-- C3 amended: when the first entry the scan stops at (every earlier entry
satisfying a continue condition) is an Available entry for which the overlap
test of lines 480-489 holds, mb_pmap_add prints the overlap diagnostic and
returns 0 with the table byte-for-byte unchanged.  Claims that touch only
non-Available entries never reach this test: they are skipped silently
rather than rejected. -/
theorem overlap_rejection_amended (t : PmapTable) (e : PmapEntry) (i : Nat)
    (hic : i < t.count)
    (hsk : ∀ j, j < i → skips e (getE t.entry j))
    (hhit : hits e (getE t.entry i))
    (hov : overlapCond e (getE t.entry i) (getE t.entry (i + 1))) :
    mbPmapAdd t e = ⟨0, t.entry, true⟩ := by
  show mbPmapAddLoop e t.count t.count 0 t.entry = _
  exact addLoop_overlap e t.count i t.count 0 t.entry (by omega) hic
    (by omega) (fun j _ hj => hsk j hj) hhit hov

/-- Witness for the amended C3 theorem: a kernel claim over an entry already
claimed by the loader is rejected with the table unchanged. -/
theorem overlap_rejection_amended_witness :
    mbPmapAdd tblLoaderClaimed claimIntoLoader
      = ⟨0, tblLoaderClaimed.entry, true⟩ :=
  overlap_rejection_amended tblLoaderClaimed claimIntoLoader 0 (by decide)
    (fun j hj => absurd hj (by omega)) (by decide) (by decide)

/-- C4: on a table whose live entries fill the storage up to the sentinel,
mb_pmap_shift reports success and destroys the topmost live entry (pages 10
to 14 are live before the call and absent afterwards) instead of failing:
the copy loop never writes past the sentinel position, so the top source
slots are overwritten without having been saved, and the only failure path
of the routine is the case of the sentinel sitting directly after the base
slot. -/
theorem shift_full_table_drops_last_entry :
    mbPmapShift tblFullStorage 0 1
      = some [⟨0, 4, 1, 0⟩, ⟨0, 4, 1, 0⟩, ⟨5, 9, 1, 0⟩, sentinelEntry]
    ∧ (⟨10, 14, 1, 0⟩ : PmapEntry) ∈ liveEntries tblFullStorage
    ∧ (⟨10, 14, 1, 0⟩ : PmapEntry)
      ∉ liveEntries [⟨0, 4, 1, 0⟩, ⟨0, 4, 1, 0⟩, ⟨5, 9, 1, 0⟩, sentinelEntry] := by
  decide

/-- C5: after the first insertion of the kernel claim of pages 140 to 159
into the free run of tblFree, re-inserting the identical claim is not a
successful no-op: the overlap test fires at the preceding remainder entry
(whose end page 139 is adjacent to the claim) because it compares the flags
of the current entry, not of the following one, against the claim, so the
second call returns 0 with the overlap diagnostic.  The table itself is
left unchanged. -/
theorem exact_reclaim_returns_error :
    (mbPmapAdd tblFree claimKernelMid).entry = splitFreeResult
    ∧ mbPmapAdd ⟨8, splitFreeResult⟩ claimKernelMid
      = ⟨0, splitFreeResult, true⟩ := by
  decide

/-- C6 counterexample: for a tag list whose single module tag is followed by
a non-module tag before the memory map tag, the reserved capacity is 12
slots, not 2 * (R + M + 2) = 8 for R = 1 raw region and M = 1 module: the
module walk steps with mb_tag_next, which visits every tag after the first
module tag regardless of type. -/
theorem capacity_overcounts_nontrailing_modules :
    specRawRegionCount tagsNontrailing = 1
    ∧ specModuleCount tagsNontrailing = 1
    ∧ kconfigCapacity tagsNontrailing = 12
    ∧ kconfigCapacity tagsNontrailing
      ≠ 2 * (specRawRegionCount tagsNontrailing
        + specModuleCount tagsNontrailing + 2) := by
  decide

/-- C6 amended: when the boot information consists of a memory map tag with
R entries followed only by the M module tags (the module tags form the
trailing run of the tag list, so the mb_tag_next walk counts exactly the
modules), kconfig_alloc reserves capacity 2 * (R + M + 2) slots before any
insertion happens. -/
theorem capacity_formula_trailing_modules (es : List MmapEnt)
    (mods : List MbTag) (h : ∀ m ∈ mods, m.isModule = true) :
    kconfigCapacity (MbTag.mmap es :: mods)
      = 2 * (es.length + mods.length + 2) := by
  have h3 : ((moduleSuffix (MbTag.mmap es :: mods)).getD []).length
      = mods.length := moduleSuffix_len_of_modules mods h
  unfold kconfigCapacity mbPmapCount
  rw [show mmapSeedCount (MbTag.mmap es :: mods) = es.length from rfl]
  rw [h3]
  omega

/-- Witness for the amended C6 theorem: one raw region and one trailing
module tag give capacity 8. -/
theorem capacity_formula_trailing_modules_witness :
    kconfigCapacity
        [MbTag.mmap [⟨0x100000, 0x100000, 1⟩], MbTag.module 0x2000 0x3000]
      = 2 * (1 + 1 + 2) :=
  capacity_formula_trailing_modules [⟨0x100000, 0x100000, 1⟩]
    [MbTag.module 0x2000 0x3000] (by decide)

/-- C7 counterexample: with an empty tag list the Region Source reports no
raw region at all, yet mb_pmap_count returns 2 and kconfig_alloc reserves
4 slots; the capacity planning step has no failure mode and does not fail
with any error. -/
theorem planner_succeeds_without_memory_map :
    mbPmapCount [] = 2 ∧ mbPmapCount [] ≠ 0 ∧ kconfigCapacity [] = 4 := by
  decide

/-- C7 amended: when the boot information carries neither a memory map tag
nor a basic memory information tag, capacity planning still yields a
positive count, but seeding fails: mb_pmap_init returns 0 without touching
the table and kconfig_alloc returns the null pointer, so the builder
reports fatal failure instead of returning a table. -/
theorem no_memory_map_fails_in_seed (info : BootInfo)
    (addr magic ks ke : Nat) (kc : Kconfig)
    (h6 : findMmapEntries info.tags = none)
    (h4 : findMeminfo info.tags = none) :
    mbPmapInit kc info ks ke = (0, kc)
    ∧ kconfigAlloc info addr magic ks ke = none := by
  refine ⟨mbPmapInit_no_map info kc ks ke h6 h4, ?_⟩
  simp only [kconfigAlloc]
  rw [mbPmapInit_no_map info _ ks ke h6 h4]
  simp

/-- Witness for the amended C7 theorem: a boot information block holding
only a command line tag yields no table. -/
theorem no_memory_map_fails_in_seed_witness :
    mbPmapInit ⟨0, 0, ⟨0, []⟩⟩ ⟨[MbTag.other 1], 0⟩ 0 0
        = (0, ⟨0, 0, ⟨0, []⟩⟩)
    ∧ kconfigAlloc ⟨[MbTag.other 1], 0⟩ 0 0 0 0 = none :=
  no_memory_map_fails_in_seed ⟨[MbTag.other 1], 0⟩ 0 0 0 0 ⟨0, 0, ⟨0, []⟩⟩
    (by decide) (by decide)

/-- C8 counterexample: the claim of pages 21 to 30 overlaps no entry of
tblSingleFree (its only live entry ends at page 20), so by the claim the
call should leave the table unchanged and return the entry count 6; instead
the scan matches the free run through the adjacency test start > end + 1,
the tail case falls through to the split block, the table is rewritten (the
claim is inserted and an inverted remainder of pages 31 to 20 appears) and
the call returns 0. -/
theorem gap_adjacent_claim_rewrites_table :
    (∀ i, i < tblSingleFree.count →
      claimPastEnd.end_ < (getE tblSingleFree.entry i).start
      ∨ (getE tblSingleFree.entry i).end_ < claimPastEnd.start
      ∨ (getE tblSingleFree.entry i).type ≠ MULTIBOOT_MEMORY_AVAILABLE)
    ∧ mbPmapAdd tblSingleFree claimPastEnd
      = ⟨0, [⟨10, 20, 1, 0⟩, ⟨21, 30, 1, 1⟩, ⟨31, 20, 1, 0⟩, zeroEntry,
        zeroEntry, zeroEntry, sentinelEntry], false⟩
    ∧ (mbPmapAdd tblSingleFree claimPastEnd).entry ≠ tblSingleFree.entry
    ∧ (mbPmapAdd tblSingleFree claimPastEnd).ret ≠ tblSingleFree.count := by
  decide

/-- C8 amended: when every entry of the table satisfies one of the continue
conditions of the scan (non-Available type, or the claim starts more than
one page past the entry end, or ends before the entry start) the loop runs
to completion, leaves the table unchanged and returns pmap->count, which is
nonzero for any table built by kconfig_alloc and which the callers read as
success: the claim is silently ignored.  A claim lying in a gap directly
adjacent to the end of an Available entry does not satisfy the conditions
and is not ignored. -/
theorem nonmatching_claim_ignored (t : PmapTable) (e : PmapEntry)
    (hpos : 0 < t.count)
    (h : ∀ i, i < t.count → skips e (getE t.entry i)) :
    mbPmapAdd t e = ⟨t.count, t.entry, false⟩
    ∧ (mbPmapAdd t e).ret ≠ 0 := by
  have hm : mbPmapAdd t e = ⟨t.count, t.entry, false⟩ := by
    show mbPmapAddLoop e t.count t.count 0 t.entry = _
    exact addLoop_all_skip e t.count t.count 0 t.entry (by omega) (by omega)
      (fun i _ hic => h i hic)
  refine ⟨hm, ?_⟩
  rw [hm]
  show t.count ≠ 0
  omega

/-- Witness for the amended C8 theorem: a claim below every entry of a
table with a Reserved and an Available run is ignored with return value
5. -/
theorem nonmatching_claim_ignored_witness :
    mbPmapAdd tblReserved claimInReserved = ⟨5, tblReserved.entry, false⟩
    ∧ (mbPmapAdd tblReserved claimInReserved).ret ≠ 0 :=
  nonmatching_claim_ignored tblReserved claimInReserved (by decide)
    (by decide)

/-- C9: running kconfig_alloc on a two-region memory map with no modules,
the structure is placed at byte address 0x120000 (page 288), and in the
finished table that page lies inside the Available entry of pages 256 to
288 whose usage flags are MEMORY_PMAP_KERNEL: the self storage is claimed
with the kernel usage flag, not with a label of its own (the usage
enumeration has none). -/
theorem self_storage_claimed_as_kernel :
    kconfigAddr info9 0x7000000 0x11ffff = 0x120000
    ∧ (kconfigAlloc info9 0x7000000 MULTIBOOT2_BOOTLOADER_MAGIC 0x100000
        0x11ffff).map (fun kc => liveEntries kc.pmap.entry)
      = some [⟨0, 158, 1, MEMORY_PMAP_UNUSED⟩,
        ⟨256, 288, 1, MEMORY_PMAP_KERNEL⟩,
        ⟨289, 28671, 1, MEMORY_PMAP_UNUSED⟩,
        ⟨28672, 28672, 1, MEMORY_PMAP_LOADER⟩,
        ⟨28673, 32767, 1, MEMORY_PMAP_UNUSED⟩]
    ∧ PAGE_NUM 0x120000 = 288
    ∧ PAGE_NUM (0x120000 + KCONFIG_SIZEOF
        + kconfigCapacity info9.tags * PMAP_ENTRY_SIZEOF) = 288 := by
  decide

/-- C10: an information address with any of its low three bits set makes
mb_init return 1 at once, for every magic value, every boot information
content and every kernel image placement: the alignment test precedes every
read of the information block and the whole map construction. -/
theorem misaligned_mbi_rejected (magic addr : Nat) (info : BootInfo)
    (ks ke : Nat) (h : addr &&& 7 ≠ 0) :
    mbInit magic addr info ks ke = 1 := by
  unfold mbInit
  rw [if_pos h]

/-- Witness for the C10 theorem at address 9 with an arbitrary magic. -/
theorem misaligned_mbi_rejected_witness :
    (9 : Nat) &&& 7 ≠ 0 ∧ mbInit 0 9 ⟨[], 0⟩ 0 0 = 1 :=
  ⟨by decide, misaligned_mbi_rejected 0 9 ⟨[], 0⟩ 0 0 (by decide)⟩

end Fmios
